import Mathlib

/-! # Grid geometry and input controls of `gf`

A shallow embedding of `gf/Cells.h`, the orthogonal, staggered and hexagonal
cell topologies behind the abstract `Cells` interface, and of `Controls.cc`,
the controls that turn key, button and axis events into an active flag.

`float` scalars are idealised as elements of a linear ordered field `K` with a
floor function (exact arithmetic; `ℚ` for evaluation, `ℝ` where `sqrt 3` is
needed), `int` coordinates as `Int`.

`Cells.h` declares the member functions and defines the constructors inline.
The bodies of the member functions live in the library's `Cells.cc`, which is
not embedded here: each one is modelled from the specification and says so in
its doc comment. Where the specification leaves a table open (the neighbour
offsets of the staggered and hexagonal topologies), the table is a parameter.

`Controls.cc` is embedded function by function. A control is a value, and
`processEvent` returns the control after the event; an `assert` that fails
makes the result `none`. The event, key and gamepad types come from headers
that are not embedded and keep only what `Controls.cc` reads.
-/

namespace gf

/-! ## Value types -/

/-- The type `Vector2f`: a world-space position or size. -/
structure Vector2f (K : Type) where
  x : K
  y : K
deriving DecidableEq, Repr

/-- The type `Vector2i`: cell coordinates or layer dimensions. -/
structure Vector2i where
  x : Int
  y : Int
deriving DecidableEq, Repr

/-- The type `RectF`: an axis-aligned rectangle as (position, size). -/
structure RectF (K : Type) where
  position : Vector2f K
  size : Vector2f K
deriving DecidableEq, Repr

/-- The type `RectI`: an axis-aligned range of cell coordinates as (position, size). -/
structure RectI where
  position : Vector2i
  size : Vector2i
deriving DecidableEq, Repr

/-- The enumeration `CellAxis`. -/
inductive CellAxis where
  | X
  | Y
deriving DecidableEq, Repr

/-- The enumeration `CellIndex`. -/
inductive CellIndex where
  | Odd
  | Even
deriving DecidableEq, Repr

/-- The enumeration `CellNeighborQuery` of `Cells.h`. -/
inductive CellNeighborQuery where
  | Valid
  | Diagonal
deriving DecidableEq, Repr

/-- The enumerator values of `CellNeighborQuery`: `Valid = 0x01`, `Diagonal = 0x02`. -/
def CellNeighborQuery.value : CellNeighborQuery → Nat
  | .Valid => 0x01
  | .Diagonal => 0x02

/-- Modelled from the spec: the `Flags<CellNeighborQuery>` bit-set of `Flags.h`,
an integer bitmask over the enumerator values. -/
structure Flags where
  data : Nat
deriving DecidableEq, Repr

/-- The empty flag set `gf::None`. -/
def Flags.none : Flags := ⟨0⟩

/-- The flag set holding exactly one flag. -/
def Flags.only (q : CellNeighborQuery) : Flags := ⟨q.value⟩

/-- The call `flags.test(q)`: the bit of `q` is set. -/
def Flags.test (f : Flags) (q : CellNeighborQuery) : Bool := (f.data &&& q.value) != 0

/-- The call `flags.set(q)`: the same flags with the bit of `q` set. -/
def Flags.set (f : Flags) (q : CellNeighborQuery) : Flags := ⟨f.data ||| q.value⟩

/-- The call `flags.reset(q)`: the same flags with the bit of `q` cleared. -/
def Flags.reset (f : Flags) (q : CellNeighborQuery) : Flags :=
  ⟨f.data ^^^ (f.data &&& q.value)⟩

/-- Component-wise sum of cell coordinates. -/
def Vector2i.add (a b : Vector2i) : Vector2i := ⟨a.x + b.x, a.y + b.y⟩

/-- The coordinate of a cell along an axis. -/
def Vector2i.along (v : Vector2i) : CellAxis → Int
  | .X => v.x
  | .Y => v.y

/-- The component of a world-space vector along an axis. -/
def Vector2f.along {K : Type} (v : Vector2f K) : CellAxis → K
  | .X => v.x
  | .Y => v.y

/-- The other axis. -/
def CellAxis.other : CellAxis → CellAxis
  | .X => .Y
  | .Y => .X

/-- The coordinates lie inside `[0, layerSize)` on both axes. -/
def Vector2i.inLayer (layerSize c : Vector2i) : Bool :=
  decide (0 ≤ c.x) && decide (c.x < layerSize.x) && decide (0 ≤ c.y) && decide (c.y < layerSize.y)

section Geometry

variable {K : Type} [LinearOrderedField K] [FloorRing K]

/-- The lower corner of a rectangle. -/
def RectF.min (r : RectF K) : Vector2f K := r.position

/-- The upper corner of a rectangle. -/
def RectF.max (r : RectF K) : Vector2f K := ⟨r.position.x + r.size.x, r.position.y + r.size.y⟩

/-- The centre of a rectangle. -/
def RectF.center (r : RectF K) : Vector2f K :=
  ⟨r.position.x + r.size.x / 2, r.position.y + r.size.y / 2⟩

/-- The rectangle `inner` lies inside the rectangle `outer`. -/
def RectF.encloses (outer inner : RectF K) : Prop :=
  outer.min.x ≤ inner.min.x ∧ outer.min.y ≤ inner.min.y ∧
  inner.max.x ≤ outer.max.x ∧ inner.max.y ≤ outer.max.y

/-- The cell coordinates lie in the integer rectangle (lower edges included, upper excluded). -/
def RectI.contains (r : RectI) (c : Vector2i) : Prop :=
  r.position.x ≤ c.x ∧ c.x < r.position.x + r.size.x ∧
  r.position.y ≤ c.y ∧ c.y < r.position.y + r.size.y

/-! ## OrthogonalCells -/

/-- The class `OrthogonalCells`; its constructor stores the tile size. -/
structure OrthogonalCells (K : Type) where
  m_tileSize : Vector2f K
deriving DecidableEq, Repr

/-- Modelled from the spec: the body of `OrthogonalCells::computeBounds`, the layer size
scaled component-wise by the tile size, from the origin. -/
def OrthogonalCells.computeBounds (self : OrthogonalCells K) (layerSize : Vector2i) : RectF K :=
  ⟨⟨0, 0⟩, ⟨(layerSize.x : K) * self.m_tileSize.x, (layerSize.y : K) * self.m_tileSize.y⟩⟩

/-- Modelled from the spec: the body of `OrthogonalCells::computeCellBounds`,
position `coords * tileSize` and size `tileSize`. -/
def OrthogonalCells.computeCellBounds (self : OrthogonalCells K) (coords : Vector2i) : RectF K :=
  ⟨⟨(coords.x : K) * self.m_tileSize.x, (coords.y : K) * self.m_tileSize.y⟩, self.m_tileSize⟩

/-- Modelled from the spec: the body of `OrthogonalCells::computeCoordinates`,
the component-wise floor of `position / tileSize`. -/
def OrthogonalCells.computeCoordinates (self : OrthogonalCells K) (position : Vector2f K) :
    Vector2i :=
  ⟨⌊position.x / self.m_tileSize.x⌋, ⌊position.y / self.m_tileSize.y⌋⟩

/-- Modelled from the spec: the body of `OrthogonalCells::computeVisibleArea`, the cells from
`floor(min / tileSize)` to `ceil(max / tileSize)`, both included. -/
def OrthogonalCells.computeVisibleArea (self : OrthogonalCells K) (area : RectF K) : RectI :=
  let lo : Vector2i := ⟨⌊area.min.x / self.m_tileSize.x⌋, ⌊area.min.y / self.m_tileSize.y⌋⟩
  let hi : Vector2i := ⟨⌈area.max.x / self.m_tileSize.x⌉, ⌈area.max.y / self.m_tileSize.y⌉⟩
  ⟨lo, ⟨hi.x - lo.x + 1, hi.y - lo.y + 1⟩⟩

/-- Modelled from the spec: the body of `OrthogonalCells::computePolyline`, the four corners
of the cell bounds, clockwise from the top-left one. -/
def OrthogonalCells.computePolyline (self : OrthogonalCells K) (coords : Vector2i) :
    List (Vector2f K) :=
  let r := self.computeCellBounds coords
  [⟨r.min.x, r.min.y⟩, ⟨r.max.x, r.min.y⟩, ⟨r.max.x, r.max.y⟩, ⟨r.min.x, r.max.y⟩]

/-- The four cardinal offsets, clockwise from north: N, E, S, W. -/
def cardinalOffsets : List Vector2i := [⟨0, -1⟩, ⟨1, 0⟩, ⟨0, 1⟩, ⟨-1, 0⟩]

/-- The four diagonal offsets, clockwise from north-east: NE, SE, SW, NW. -/
def diagonalOffsets : List Vector2i := [⟨1, -1⟩, ⟨1, 1⟩, ⟨-1, 1⟩, ⟨-1, -1⟩]

/-- The last step of every `computeNeighbors`: with `Valid`, drop what is outside the layer. -/
def filterValid (layerSize : Vector2i) (flags : Flags) (neighbors : List Vector2i) :
    List Vector2i :=
  if flags.test .Valid then neighbors.filter (Vector2i.inLayer layerSize) else neighbors

/-- Modelled from the spec: the body of `OrthogonalCells::computeNeighbors`. The four
cardinal neighbours come first; `Diagonal` appends the four diagonal ones; `Valid` removes
the results outside `[0, layerSize)`. -/
def OrthogonalCells.computeNeighbors (_self : OrthogonalCells K) (coords layerSize : Vector2i)
    (flags : Flags) : List Vector2i :=
  let cardinal := cardinalOffsets.map coords.add
  let neighbors :=
    if flags.test .Diagonal then cardinal ++ diagonalOffsets.map coords.add else cardinal
  filterValid layerSize flags neighbors

/-! ## StaggeredCells -/

/-- The class `StaggeredCells`; its constructor stores tile size, axis and index. -/
structure StaggeredCells (K : Type) where
  m_tileSize : Vector2f K
  m_axis : CellAxis
  m_index : CellIndex
deriving DecidableEq, Repr

/-- The parity of a row or column number, as a `CellIndex`. -/
def parityOf (n : Int) : CellIndex := if n % 2 = 0 then .Even else .Odd

/-- The row or column `n` is one of those that receive the half-tile offset: its parity is
the one `index` selects. -/
def receivesOffset (index : CellIndex) (n : Int) : Bool := decide (parityOf n = index)

/-- The half-tile shift of the row or column `n`: half of `extent` when it receives the
offset, nothing otherwise. -/
def halfShift (index : CellIndex) (n : Int) (extent : K) : K :=
  if receivesOffset index n then extent / 2 else 0

/-- Modelled from the spec: the body of `StaggeredCells::computeCellBounds`. A cell has the
size of a tile; the columns (axis `X`, numbered along x) or the rows (axis `Y`, numbered
along y) whose parity is `index` are shifted by half a tile along the perpendicular axis. -/
def StaggeredCells.computeCellBounds (self : StaggeredCells K) (coords : Vector2i) : RectF K :=
  match self.m_axis with
  | .X =>
    ⟨⟨(coords.x : K) * self.m_tileSize.x,
      (coords.y : K) * self.m_tileSize.y + halfShift self.m_index coords.x self.m_tileSize.y⟩,
     self.m_tileSize⟩
  | .Y =>
    ⟨⟨(coords.x : K) * self.m_tileSize.x + halfShift self.m_index coords.y self.m_tileSize.x,
      (coords.y : K) * self.m_tileSize.y⟩,
     self.m_tileSize⟩

/-- Modelled from the spec: the body of `StaggeredCells::computeBounds`, the layer size scaled
by the tile size plus one half-tile along the direction of the stagger. -/
def StaggeredCells.computeBounds (self : StaggeredCells K) (layerSize : Vector2i) : RectF K :=
  match self.m_axis with
  | .X =>
    ⟨⟨0, 0⟩, ⟨(layerSize.x : K) * self.m_tileSize.x,
              (layerSize.y : K) * self.m_tileSize.y + self.m_tileSize.y / 2⟩⟩
  | .Y =>
    ⟨⟨0, 0⟩, ⟨(layerSize.x : K) * self.m_tileSize.x + self.m_tileSize.x / 2,
              (layerSize.y : K) * self.m_tileSize.y⟩⟩

/-- Modelled from the spec: the body of `StaggeredCells::computeCoordinates`. The column
(axis `X`) or row (axis `Y`) is classified first, then the position inside it is resolved
after the half-tile shift of that column or row is taken off. -/
def StaggeredCells.computeCoordinates (self : StaggeredCells K) (position : Vector2f K) :
    Vector2i :=
  match self.m_axis with
  | .X =>
    let col := ⌊position.x / self.m_tileSize.x⌋
    ⟨col, ⌊(position.y - halfShift self.m_index col self.m_tileSize.y) / self.m_tileSize.y⌋⟩
  | .Y =>
    let row := ⌊position.y / self.m_tileSize.y⌋
    ⟨⌊(position.x - halfShift self.m_index row self.m_tileSize.x) / self.m_tileSize.x⌋, row⟩

/-- The offset tables of the staggered topology, one per axis, index and parity of the
relevant row or column. The spec leaves their entries to the implementer. -/
abbrev StaggeredOffsets := CellAxis → CellIndex → CellIndex → List Vector2i

/-- Modelled from the spec: the body of `StaggeredCells::computeNeighbors`. The offsets come
from the table of the axis and of the parity of the relevant column (axis `X`) or row
(axis `Y`); `Diagonal` changes nothing; `Valid` filters as for orthogonal cells. -/
def StaggeredCells.computeNeighbors (offsets : StaggeredOffsets) (self : StaggeredCells K)
    (coords layerSize : Vector2i) (flags : Flags) : List Vector2i :=
  let table := offsets self.m_axis self.m_index (parityOf (coords.along self.m_axis))
  filterValid layerSize flags (table.map coords.add)

/-! ## HexagonalCells -/

/-- The class `HexagonalCells`; the structure constructor is the first C++ constructor
`HexagonalCells(tileSize, sideLength, axis, index)`. -/
structure HexagonalCells (K : Type) where
  m_tileSize : Vector2f K
  m_sideLength : K
  m_axis : CellAxis
  m_index : CellIndex
deriving DecidableEq, Repr

/-- Modelled from the spec: the body of `HexagonalCells::computeRegularSize`. The bounding
box of a regular hexagon measures `2 * radius` along the pointed axis, which is `axis`, and
`radius * sqrt 3` along the flat one. The constant `Sqrt3` of the library is a parameter. -/
def HexagonalCells.computeRegularSize (Sqrt3 : K) (axis : CellAxis) (radius : K) : Vector2f K :=
  match axis with
  | .X => ⟨radius * 2, radius * Sqrt3⟩
  | .Y => ⟨radius * Sqrt3, radius * 2⟩

/-- The second C++ constructor `HexagonalCells(radius, axis, index)`. -/
def HexagonalCells.ofRadius (Sqrt3 : K) (radius : K) (axis : CellAxis) (index : CellIndex) :
    HexagonalCells K :=
  { m_tileSize := HexagonalCells.computeRegularSize Sqrt3 axis radius
    m_sideLength := radius
    m_axis := axis
    m_index := index }

/-- The offset tables of the hexagonal topology: six offsets per axis, index and parity of
the relevant row or column. The spec leaves their entries to the implementer. -/
abbrev HexagonalOffsets := CellAxis → CellIndex → CellIndex → Fin 6 → Vector2i

/-- Modelled from the spec: the body of `HexagonalCells::computeNeighbors`. Always six
offsets, from the table of the axis and of the parity of the relevant column (axis `X`) or
row (axis `Y`); `Diagonal` changes nothing; `Valid` filters as for orthogonal cells. -/
def HexagonalCells.computeNeighbors (offsets : HexagonalOffsets) (self : HexagonalCells K)
    (coords layerSize : Vector2i) (flags : Flags) : List Vector2i :=
  let table := List.ofFn (offsets self.m_axis self.m_index (parityOf (coords.along self.m_axis)))
  filterValid layerSize flags (table.map coords.add)

/-! ## Outlines -/

/-- Modelled from the spec: the body of `StaggeredCells::computePolyline`. The outline of a
staggered cell has four vertices; where they lie on the cell is not in the spec and is the
parameter `outline`, a function of the bounds of the cell. -/
def StaggeredCells.computePolyline (outline : RectF K → Fin 4 → Vector2f K)
    (self : StaggeredCells K) (coords : Vector2i) : List (Vector2f K) :=
  List.ofFn (outline (self.computeCellBounds coords))

/-- Modelled from the spec: the body of `HexagonalCells::computeCellBounds`. The bounds of a
cell have the size of a tile; the spec has no formula for where they lie, which is the
parameter `position`. -/
def HexagonalCells.computeCellBounds (position : Vector2i → Vector2f K)
    (self : HexagonalCells K) (coords : Vector2i) : RectF K :=
  ⟨position coords, self.m_tileSize⟩

/-- The unit vectors at the six angles of a hexagon outline, 60 degrees apart: from 0 degrees
for the flat-top hexagons of axis `X`, from 30 degrees for the pointy-top hexagons of axis
`Y`. The cosines and sines are 0, 1/2, `Sqrt3 / 2`, 1 and their opposites. -/
def hexagonDirections (Sqrt3 : K) : CellAxis → List (Vector2f K)
  | .X =>
    [⟨1, 0⟩, ⟨1 / 2, Sqrt3 / 2⟩, ⟨-(1 / 2), Sqrt3 / 2⟩,
     ⟨-1, 0⟩, ⟨-(1 / 2), -(Sqrt3 / 2)⟩, ⟨1 / 2, -(Sqrt3 / 2)⟩]
  | .Y =>
    [⟨Sqrt3 / 2, 1 / 2⟩, ⟨0, 1⟩, ⟨-(Sqrt3 / 2), 1 / 2⟩,
     ⟨-(Sqrt3 / 2), -(1 / 2)⟩, ⟨0, -1⟩, ⟨Sqrt3 / 2, -(1 / 2)⟩]

/-- Modelled from the spec: the body of `HexagonalCells::computePolyline`. Six vertices at
the distance `sideLength` from the centre of the cell, 60 degrees apart, the first one at
0 degrees for flat-top and at 30 degrees for pointy-top hexagons. -/
def HexagonalCells.computePolyline (Sqrt3 : K) (position : Vector2i → Vector2f K)
    (self : HexagonalCells K) (coords : Vector2i) : List (Vector2f K) :=
  let center := (self.computeCellBounds position coords).center
  (hexagonDirections Sqrt3 self.m_axis).map fun d =>
    ⟨center.x + self.m_sideLength * d.x, center.y + self.m_sideLength * d.y⟩

/-! ## The `Cells` interface -/

/-- The abstract class `Cells` with its three implementations. The staggered and hexagonal
ones carry the offset tables their `computeNeighbors` reads. -/
inductive Cells (K : Type) where
  | orthogonal (cells : OrthogonalCells K)
  | staggered (offsets : StaggeredOffsets) (cells : StaggeredCells K)
  | hexagonal (offsets : HexagonalOffsets) (cells : HexagonalCells K)

/-- The virtual call `Cells::computeNeighbors`. -/
def Cells.computeNeighbors (self : Cells K) (coords layerSize : Vector2i) (flags : Flags) :
    List Vector2i :=
  match self with
  | .orthogonal cells => cells.computeNeighbors coords layerSize flags
  | .staggered offsets cells => cells.computeNeighbors offsets coords layerSize flags
  | .hexagonal offsets cells => cells.computeNeighbors offsets coords layerSize flags

/-- The rectangle `r` is the smallest axis-aligned rectangle that contains the bounds of
every cell of the layer: it contains them all, and lies inside every rectangle that does. -/
def IsLayerBoundingBox (cellBounds : Vector2i → RectF K) (layerSize : Vector2i)
    (r : RectF K) : Prop :=
  (∀ c, Vector2i.inLayer layerSize c = true → r.encloses (cellBounds c)) ∧
  (∀ r' : RectF K,
    (∀ c, Vector2i.inLayer layerSize c = true → r'.encloses (cellBounds c)) → r'.encloses r)

end Geometry

/-! ## Controls (`Controls.cc`) -/

/-- The enumeration `Keycode` of `Keyboard.h`: the enumerators that `Controls.cc` names, and
`other` for every further key. -/
inductive Keycode where
  | Unknown
  | Up
  | Down
  | Left
  | Right
  | A
  | B
  | other (code : Nat)
deriving DecidableEq, Repr

/-- The enumeration `Scancode` of `Keyboard.h`, by its integer value. -/
structure Scancode where
  code : Nat
deriving DecidableEq, Repr

/-- The enumeration `MouseButton` of `Mouse.h`, by its integer value. -/
structure MouseButton where
  code : Nat
deriving DecidableEq, Repr

/-- The type `GamepadId` of `Gamepad.h`, by its integer value. -/
structure GamepadId where
  id : Int
deriving DecidableEq, Repr

/-- The enumeration `GamepadButton` of `Gamepad.h`, by its integer value. -/
structure GamepadButton where
  code : Nat
deriving DecidableEq, Repr

/-- The enumeration `GamepadAxis` of `Gamepad.h`, by its integer value. -/
structure GamepadAxis where
  code : Nat
deriving DecidableEq, Repr

/-- The enumeration `GamepadAxisDirection` of `Gamepad.h`. -/
inductive GamepadAxisDirection where
  | Positive
  | Negative
deriving DecidableEq, Repr

/-- The enumeration `EventType` of `Event.h`: the enumerators that `Controls.cc` names, and
`other` for every further type of event. -/
inductive EventType where
  | Closed
  | KeyPressed
  | KeyReleased
  | MouseButtonPressed
  | MouseButtonReleased
  | GamepadButtonPressed
  | GamepadButtonReleased
  | GamepadAxisMoved
  | other (code : Nat)
deriving DecidableEq, Repr

/-- The member `event.key`: the fields that `Controls.cc` reads. -/
structure KeyEvent where
  keycode : Keycode
  scancode : Scancode
deriving DecidableEq, Repr

/-- The member `event.mouseButton`. -/
structure MouseButtonEvent where
  button : MouseButton
deriving DecidableEq, Repr

/-- The member `event.gamepadButton`. -/
structure GamepadButtonEvent where
  id : GamepadId
  button : GamepadButton
deriving DecidableEq, Repr

/-- The member `event.gamepadAxis`; `value` is an `int16_t`. -/
structure GamepadAxisEvent where
  id : GamepadId
  axis : GamepadAxis
  value : Int
deriving DecidableEq, Repr

/-- The structure `Event` of `Event.h`: the type of the event and the members of its union
that `Controls.cc` reads. Each member is read only under the matching type. -/
structure Event where
  type : EventType
  key : KeyEvent
  mouseButton : MouseButtonEvent
  gamepadButton : GamepadButtonEvent
  gamepadAxis : GamepadAxisEvent
deriving DecidableEq, Repr

/-- Modelled from the spec: the base class `Control` of `Control.h`, which is not among the
sources. It holds the active flag that `setActive` writes and `isActive` reads. -/
structure Control where
  m_active : Bool
deriving DecidableEq, Repr

/-- The call `setActive(active)`. -/
def Control.setActive (self : Control) (active : Bool) : Control :=
  { self with m_active := active }

/-- The call `isActive()`. -/
def Control.isActive (self : Control) : Bool := self.m_active

/-- The class `KeycodeKeyControl`. -/
structure KeycodeKeyControl extends Control where
  m_code : Keycode
deriving DecidableEq, Repr

/-- The method `KeycodeKeyControl::processEvent`. -/
def KeycodeKeyControl.processEvent (self : KeycodeKeyControl) (event : Event) :
    KeycodeKeyControl :=
  let s1 :=
    if event.type = .KeyPressed then
      if event.key.keycode = self.m_code then
        { self with toControl := self.toControl.setActive true }
      else self
    else self
  if event.type = .KeyReleased then
    if event.key.keycode = s1.m_code then
      { s1 with toControl := s1.toControl.setActive false }
    else s1
  else s1

/-- The class `ScancodeKeyControl`. -/
structure ScancodeKeyControl extends Control where
  m_code : Scancode
deriving DecidableEq, Repr

/-- The method `ScancodeKeyControl::processEvent`. -/
def ScancodeKeyControl.processEvent (self : ScancodeKeyControl) (event : Event) :
    ScancodeKeyControl :=
  let s1 :=
    if event.type = .KeyPressed then
      if event.key.scancode = self.m_code then
        { self with toControl := self.toControl.setActive true }
      else self
    else self
  if event.type = .KeyReleased then
    if event.key.scancode = s1.m_code then
      { s1 with toControl := s1.toControl.setActive false }
    else s1
  else s1

/-- The class `MouseButtonControl`. -/
structure MouseButtonControl extends Control where
  m_button : MouseButton
deriving DecidableEq, Repr

/-- The method `MouseButtonControl::processEvent`. -/
def MouseButtonControl.processEvent (self : MouseButtonControl) (event : Event) :
    MouseButtonControl :=
  let s1 :=
    if event.type = .MouseButtonPressed then
      if event.mouseButton.button = self.m_button then
        { self with toControl := self.toControl.setActive true }
      else self
    else self
  if event.type = .MouseButtonReleased then
    if event.mouseButton.button = s1.m_button then
      { s1 with toControl := s1.toControl.setActive false }
    else s1
  else s1

/-- The class `GamepadButtonControl`. -/
structure GamepadButtonControl extends Control where
  m_id : GamepadId
  m_button : GamepadButton
deriving DecidableEq, Repr

/-- The method `GamepadButtonControl::processEvent`. -/
def GamepadButtonControl.processEvent (self : GamepadButtonControl) (event : Event) :
    GamepadButtonControl :=
  let s1 :=
    if event.type = .GamepadButtonPressed then
      if event.gamepadButton.id = self.m_id ∧ event.gamepadButton.button = self.m_button then
        { self with toControl := self.toControl.setActive true }
      else self
    else self
  if event.type = .GamepadButtonReleased then
    if event.gamepadButton.id = s1.m_id ∧ event.gamepadButton.button = s1.m_button then
      { s1 with toControl := s1.toControl.setActive false }
    else s1
  else s1

/-- The class `GamepadAxisControl`. -/
structure GamepadAxisControl extends Control where
  m_id : GamepadId
  m_axis : GamepadAxis
  m_dir : GamepadAxisDirection
deriving DecidableEq, Repr

/-- The constant `GamepadAxisThreshold`. -/
def GamepadAxisThreshold : Int := 8000

/-- The method `GamepadAxisControl::processEvent`. -/
def GamepadAxisControl.processEvent (self : GamepadAxisControl) (event : Event) :
    GamepadAxisControl :=
  if event.type = .GamepadAxisMoved then
    if event.gamepadAxis.id = self.m_id ∧ event.gamepadAxis.axis = self.m_axis then
      match self.m_dir with
      | .Positive =>
        { self with toControl :=
            self.toControl.setActive (decide (event.gamepadAxis.value > GamepadAxisThreshold)) }
      | .Negative =>
        { self with toControl :=
            self.toControl.setActive (decide (event.gamepadAxis.value < -GamepadAxisThreshold)) }
    else self
  else self

/-- The states `Released` and `Pressed` of `KonamiKeyboardControl`. -/
inductive KonamiState where
  | Released
  | Pressed
deriving DecidableEq, Repr

/-- The constant `KonamiKeysCount`. -/
def KonamiKeysCount : Int := 10

/-- The function `nthKeyForKonami`. The result is `none` where an assertion fails: the one
on entry, `index < KonamiKeysCount`, or the `assert(false)` behind the `switch`. -/
def nthKeyForKonami (index : Int) : Option Keycode :=
  if index < KonamiKeysCount then
    match index with
    | 0 => some .Up
    | 1 => some .Up
    | 2 => some .Down
    | 3 => some .Down
    | 4 => some .Left
    | 6 => some .Left
    | 5 => some .Right
    | 7 => some .Right
    | 8 => some .B
    | 9 => some .A
    | _ => none
  else none

/-- The class `KonamiKeyboardControl`. -/
structure KonamiKeyboardControl extends Control where
  m_index : Int
  m_state : KonamiState
deriving DecidableEq, Repr

/-- The constructor `KonamiKeyboardControl()`: index 0 and state `Released`, on top of the
base object `base` that the constructor of `Control` builds. -/
def KonamiKeyboardControl.new (base : Control) : KonamiKeyboardControl :=
  { toControl := base, m_index := 0, m_state := .Released }

/-- The method `KonamiKeyboardControl::processEvent`; `none` when an assertion of
`nthKeyForKonami` fails. -/
def KonamiKeyboardControl.processEvent (self : KonamiKeyboardControl) (event : Event) :
    Option KonamiKeyboardControl := do
  let s1 ←
    if self.m_state = .Released ∧ event.type = .KeyPressed then do
      let key ← nthKeyForKonami self.m_index
      if event.key.keycode = key then
        pure { self with m_state := .Pressed }
      else
        pure { self with m_index := 0 }
    else pure self
  let s2 ←
    if s1.m_state = .Pressed ∧ event.type = .KeyReleased then do
      let s : KonamiKeyboardControl := { s1 with m_state := .Released }
      let key ← nthKeyForKonami s.m_index
      if event.key.keycode = key then
        pure { s with m_index := s.m_index + 1 }
      else
        pure { s with m_index := 0 }
    else pure s1
  if s2.m_index = KonamiKeysCount then
    pure { s2 with toControl := s2.toControl.setActive true, m_index := 0 }
  else
    pure { s2 with toControl := s2.toControl.setActive false }

/-- The control after a sequence of events, each handled by `processEvent`. -/
def KonamiKeyboardControl.processEvents (self : KonamiKeyboardControl) :
    List Event → Option KonamiKeyboardControl
  | [] => some self
  | event :: events => (self.processEvent event).bind fun s => s.processEvents events

/-- An event of a given type about a given key; the members that belong to other types of
event are filled with zeros. -/
def Event.ofKey (type : EventType) (keycode : Keycode) : Event :=
  { type := type
    key := ⟨keycode, ⟨0⟩⟩
    mouseButton := ⟨⟨0⟩⟩
    gamepadButton := ⟨⟨0⟩, ⟨0⟩⟩
    gamepadAxis := ⟨⟨0⟩, ⟨0⟩, 0⟩ }

/-- A `GamepadAxisMoved` event; the members that belong to other types of event are filled
with zeros. -/
def Event.ofAxis (id : GamepadId) (axis : GamepadAxis) (value : Int) : Event :=
  { type := .GamepadAxisMoved
    key := ⟨.Unknown, ⟨0⟩⟩
    mouseButton := ⟨⟨0⟩⟩
    gamepadButton := ⟨⟨0⟩, ⟨0⟩⟩
    gamepadAxis := ⟨id, axis, value⟩ }

/-- The Konami code: Up, Up, Down, Down, Left, Right, Left, Right, B, A. -/
def konamiCode : List Keycode :=
  [.Up, .Up, .Down, .Down, .Left, .Right, .Left, .Right, .B, .A]

/-! ## Flags -/

theorem testBit_one_one : Nat.testBit 1 1 = false := by decide

theorem testBit_two_one : Nat.testBit 2 1 = true := by decide

theorem Flags.test_valid (f : Flags) : f.test .Valid = f.data.testBit 0 := by
  simp [Flags.test, CellNeighborQuery.value, Nat.testBit, Nat.and_comm]

theorem Flags.test_diagonal (f : Flags) : f.test .Diagonal = f.data.testBit 1 := by
  have h := Nat.and_two_pow f.data 1
  simp only [pow_one] at h
  simp only [Flags.test, CellNeighborQuery.value, h]
  cases f.data.testBit 1 <;> simp

theorem Flags.test_none (q : CellNeighborQuery) : Flags.none.test q = false := by
  cases q <;> rfl

theorem Flags.reset_valid_test_valid (f : Flags) : (f.reset .Valid).test .Valid = false := by
  rw [Flags.test_valid]
  simp only [Flags.reset, CellNeighborQuery.value, Nat.testBit_xor, Nat.testBit_and]
  cases f.data.testBit 0 <;> simp

theorem Flags.reset_valid_test_diagonal (f : Flags) :
    (f.reset .Valid).test .Diagonal = f.test .Diagonal := by
  rw [Flags.test_diagonal, Flags.test_diagonal]
  simp only [Flags.reset, CellNeighborQuery.value, Nat.testBit_xor, Nat.testBit_and]
  cases f.data.testBit 1 <;> simp [testBit_one_one, testBit_two_one]

theorem Flags.set_diagonal_test_valid (f : Flags) :
    (f.set .Diagonal).test .Valid = f.test .Valid := by
  rw [Flags.test_valid, Flags.test_valid]
  simp only [Flags.set, CellNeighborQuery.value, Nat.testBit_or]
  cases f.data.testBit 0 <;> simp

theorem Flags.reset_diagonal_test_valid (f : Flags) :
    (f.reset .Diagonal).test .Valid = f.test .Valid := by
  rw [Flags.test_valid, Flags.test_valid]
  simp only [Flags.reset, CellNeighborQuery.value, Nat.testBit_xor, Nat.testBit_and]
  cases f.data.testBit 0 <;> simp

theorem Flags.set_diagonal_test_diagonal (f : Flags) :
    (f.set .Diagonal).test .Diagonal = true := by
  rw [Flags.test_diagonal]
  simp only [Flags.set, CellNeighborQuery.value, Nat.testBit_or]
  cases f.data.testBit 1 <;> simp [testBit_one_one, testBit_two_one]

theorem Flags.reset_diagonal_test_diagonal (f : Flags) :
    (f.reset .Diagonal).test .Diagonal = false := by
  rw [Flags.test_diagonal]
  simp only [Flags.reset, CellNeighborQuery.value, Nat.testBit_xor, Nat.testBit_and]
  cases f.data.testBit 1 <;> simp [testBit_one_one, testBit_two_one]

/-! ## Filtering by `Valid` -/

section Neighbors

variable {K : Type}

theorem inLayer_iff (layerSize c : Vector2i) :
    Vector2i.inLayer layerSize c = true ↔
      0 ≤ c.x ∧ c.x < layerSize.x ∧ 0 ≤ c.y ∧ c.y < layerSize.y := by
  simp [Vector2i.inLayer, and_assoc]

theorem filterValid_of_valid (layerSize : Vector2i) (flags : Flags) (l : List Vector2i)
    (h : flags.test .Valid = true) :
    filterValid layerSize flags l = l.filter (Vector2i.inLayer layerSize) := by
  simp [filterValid, h]

theorem filterValid_of_not_valid (layerSize : Vector2i) (flags : Flags) (l : List Vector2i)
    (h : flags.test .Valid = false) : filterValid layerSize flags l = l := by
  simp [filterValid, h]

/-- Two flag sets that agree on `Diagonal`, one with `Valid` and one without: the result with
`Valid` is the filtered result without it. -/
theorem computeNeighbors_filter (cells : Cells K) (coords layerSize : Vector2i)
    (f g : Flags) (hf : f.test .Valid = true) (hg : g.test .Valid = false)
    (hd : g.test .Diagonal = f.test .Diagonal) :
    cells.computeNeighbors coords layerSize f =
      (cells.computeNeighbors coords layerSize g).filter (Vector2i.inLayer layerSize) := by
  cases cells with
  | orthogonal c =>
    simp only [Cells.computeNeighbors, OrthogonalCells.computeNeighbors, hd]
    rw [filterValid_of_valid _ _ _ hf, filterValid_of_not_valid _ _ _ hg]
  | staggered o c =>
    simp only [Cells.computeNeighbors, StaggeredCells.computeNeighbors]
    rw [filterValid_of_valid _ _ _ hf, filterValid_of_not_valid _ _ _ hg]
  | hexagonal o c =>
    simp only [Cells.computeNeighbors, HexagonalCells.computeNeighbors]
    rw [filterValid_of_valid _ _ _ hf, filterValid_of_not_valid _ _ _ hg]

/-- C2 (valid filtering). For every topology, coordinates, layer size and flag set that
contains `Valid`: every coordinate returned by `computeNeighbors` lies in
`[0, layerSize.x) × [0, layerSize.y)`, and the returned sequence is the result for the same
flags without `Valid`, with the out-of-range elements removed and the order kept. -/
theorem valid_filtering (cells : Cells K) (coords layerSize : Vector2i) (flags : Flags)
    (hValid : flags.test .Valid = true) :
    (∀ p ∈ cells.computeNeighbors coords layerSize flags,
        0 ≤ p.x ∧ p.x < layerSize.x ∧ 0 ≤ p.y ∧ p.y < layerSize.y) ∧
    cells.computeNeighbors coords layerSize flags =
      (cells.computeNeighbors coords layerSize (flags.reset .Valid)).filter
        (fun p => decide (0 ≤ p.x) && decide (p.x < layerSize.x) &&
          decide (0 ≤ p.y) && decide (p.y < layerSize.y)) := by
  have hEq := computeNeighbors_filter cells coords layerSize flags (flags.reset .Valid)
    hValid (Flags.reset_valid_test_valid flags) (Flags.reset_valid_test_diagonal flags)
  refine ⟨?_, hEq⟩
  intro p hp
  rw [hEq] at hp
  exact (inLayer_iff layerSize p).mp (List.mem_filter.mp hp).2

/-- Witness of C2: the orthogonal cells of tile size 32 x 32, queried at (0, 0) in a 3 x 3 layer
with the flags `Valid | Diagonal`. -/
theorem valid_filtering_witness :
    (Flags.mk 3).test .Valid = true ∧
    (∀ p ∈ (Cells.orthogonal (⟨⟨32, 32⟩⟩ : OrthogonalCells ℚ)).computeNeighbors ⟨0, 0⟩ ⟨3, 3⟩
        (Flags.mk 3), 0 ≤ p.x ∧ p.x < 3 ∧ 0 ≤ p.y ∧ p.y < 3) ∧
    (Cells.orthogonal (⟨⟨32, 32⟩⟩ : OrthogonalCells ℚ)).computeNeighbors ⟨0, 0⟩ ⟨3, 3⟩
        (Flags.mk 3) = [⟨1, 0⟩, ⟨0, 1⟩, ⟨1, 1⟩] :=
  ⟨by decide,
   (valid_filtering (Cells.orthogonal (⟨⟨32, 32⟩⟩ : OrthogonalCells ℚ)) ⟨0, 0⟩ ⟨3, 3⟩
      (Flags.mk 3) (by decide)).1,
   by decide⟩

/-- C5 (orthogonal neighbours). Without `Valid` and without `Diagonal` the result is the four
cardinal neighbours in the order north, east, south, west; without `Valid` and with `Diagonal`
the four diagonal neighbours NE, SE, SW, NW follow them, for 8 in total. For tile size 32 x 32,
`computeNeighbors((1,1), (3,3), Valid)` is (1,0), (2,1), (1,2), (0,1): the coordinates
(0,1), (1,0), (1,2), (2,1), clockwise from north. -/
theorem orthogonal_neighbors :
    (∀ (cells : OrthogonalCells K) (coords layerSize : Vector2i) (flags : Flags),
      flags.test .Valid = false → flags.test .Diagonal = false →
      cells.computeNeighbors coords layerSize flags =
        [coords.add ⟨0, -1⟩, coords.add ⟨1, 0⟩, coords.add ⟨0, 1⟩, coords.add ⟨-1, 0⟩]) ∧
    (∀ (cells : OrthogonalCells K) (coords layerSize : Vector2i) (flags : Flags),
      flags.test .Valid = false → flags.test .Diagonal = true →
      cells.computeNeighbors coords layerSize flags =
        [coords.add ⟨0, -1⟩, coords.add ⟨1, 0⟩, coords.add ⟨0, 1⟩, coords.add ⟨-1, 0⟩,
         coords.add ⟨1, -1⟩, coords.add ⟨1, 1⟩, coords.add ⟨-1, 1⟩, coords.add ⟨-1, -1⟩] ∧
      (cells.computeNeighbors coords layerSize flags).length = 8) ∧
    ((⟨⟨32, 32⟩⟩ : OrthogonalCells ℚ).computeNeighbors ⟨1, 1⟩ ⟨3, 3⟩ (Flags.only .Valid) =
        [⟨1, 0⟩, ⟨2, 1⟩, ⟨1, 2⟩, ⟨0, 1⟩] ∧
      ∀ p : Vector2i,
        p ∈ (⟨⟨32, 32⟩⟩ : OrthogonalCells ℚ).computeNeighbors ⟨1, 1⟩ ⟨3, 3⟩ (Flags.only .Valid) ↔
          p = ⟨0, 1⟩ ∨ p = ⟨1, 0⟩ ∨ p = ⟨1, 2⟩ ∨ p = ⟨2, 1⟩) := by
  refine ⟨?_, ?_, ?_, ?_⟩
  · intro cells coords layerSize flags hv hd
    simp [OrthogonalCells.computeNeighbors, filterValid, hv, hd, cardinalOffsets]
  · intro cells coords layerSize flags hv hd
    simp [OrthogonalCells.computeNeighbors, filterValid, hv, hd, cardinalOffsets,
      diagonalOffsets]
  · decide
  · intro p
    have h : (⟨⟨32, 32⟩⟩ : OrthogonalCells ℚ).computeNeighbors ⟨1, 1⟩ ⟨3, 3⟩
        (Flags.only .Valid) = [⟨1, 0⟩, ⟨2, 1⟩, ⟨1, 2⟩, ⟨0, 1⟩] := by decide
    rw [h]
    simp only [List.mem_cons, List.mem_singleton, List.not_mem_nil, or_false]
    tauto

/-- Witness of C5: the cell (5, 7) with no flag, and with `Diagonal` alone. -/
theorem orthogonal_neighbors_witness :
    (⟨⟨32, 32⟩⟩ : OrthogonalCells ℚ).computeNeighbors ⟨5, 7⟩ ⟨3, 3⟩ Flags.none =
        [⟨5, 6⟩, ⟨6, 7⟩, ⟨5, 8⟩, ⟨4, 7⟩] ∧
    (⟨⟨32, 32⟩⟩ : OrthogonalCells ℚ).computeNeighbors ⟨5, 7⟩ ⟨3, 3⟩ (Flags.only .Diagonal) =
        [⟨5, 6⟩, ⟨6, 7⟩, ⟨5, 8⟩, ⟨4, 7⟩, ⟨6, 6⟩, ⟨6, 8⟩, ⟨4, 8⟩, ⟨4, 6⟩] :=
  ⟨orthogonal_neighbors.1 ⟨⟨32, 32⟩⟩ ⟨5, 7⟩ ⟨3, 3⟩ Flags.none (by decide) (by decide),
   (orthogonal_neighbors.2.1 ⟨⟨32, 32⟩⟩ ⟨5, 7⟩ ⟨3, 3⟩ (Flags.only .Diagonal)
      (by decide) (by decide)).1⟩

/-- C8 (neighbour cardinality). With no flags, orthogonal cells return exactly 4 coordinates
and hexagonal cells exactly 6, and staggered cells return the same number of coordinates for
two cells whose relevant column or row has the same parity. With `Diagonal` (and no `Valid`)
orthogonal cells return 8; for staggered and hexagonal cells the sequence with `Diagonal` set
is the sequence with `Diagonal` cleared. -/
theorem neighbor_cardinality :
    (∀ (cells : OrthogonalCells K) (coords layerSize : Vector2i),
      (cells.computeNeighbors coords layerSize Flags.none).length = 4) ∧
    (∀ (offsets : HexagonalOffsets) (cells : HexagonalCells K) (coords layerSize : Vector2i),
      (cells.computeNeighbors offsets coords layerSize Flags.none).length = 6) ∧
    (∀ (offsets : StaggeredOffsets) (cells : StaggeredCells K) (a b layerSize : Vector2i),
      parityOf (a.along cells.m_axis) = parityOf (b.along cells.m_axis) →
      (cells.computeNeighbors offsets a layerSize Flags.none).length =
        (cells.computeNeighbors offsets b layerSize Flags.none).length) ∧
    (∀ (cells : OrthogonalCells K) (coords layerSize : Vector2i) (flags : Flags),
      flags.test .Diagonal = true → flags.test .Valid = false →
      (cells.computeNeighbors coords layerSize flags).length = 8) ∧
    (∀ (offsets : StaggeredOffsets) (cells : StaggeredCells K) (coords layerSize : Vector2i)
        (flags : Flags),
      cells.computeNeighbors offsets coords layerSize (flags.set .Diagonal) =
        cells.computeNeighbors offsets coords layerSize (flags.reset .Diagonal)) ∧
    (∀ (offsets : HexagonalOffsets) (cells : HexagonalCells K) (coords layerSize : Vector2i)
        (flags : Flags),
      cells.computeNeighbors offsets coords layerSize (flags.set .Diagonal) =
        cells.computeNeighbors offsets coords layerSize (flags.reset .Diagonal)) := by
  refine ⟨?_, ?_, ?_, ?_, ?_, ?_⟩
  · intro cells coords layerSize
    simp [OrthogonalCells.computeNeighbors, filterValid, Flags.test_none, cardinalOffsets]
  · intro offsets cells coords layerSize
    simp [HexagonalCells.computeNeighbors, filterValid, Flags.test_none]
  · intro offsets cells a b layerSize h
    simp [StaggeredCells.computeNeighbors, filterValid, Flags.test_none, h]
  · intro cells coords layerSize flags hd hv
    simp [OrthogonalCells.computeNeighbors, filterValid, hv, hd, cardinalOffsets,
      diagonalOffsets]
  · intro offsets cells coords layerSize flags
    simp only [StaggeredCells.computeNeighbors, filterValid, Flags.set_diagonal_test_valid,
      Flags.reset_diagonal_test_valid]
  · intro offsets cells coords layerSize flags
    simp only [HexagonalCells.computeNeighbors, filterValid, Flags.set_diagonal_test_valid,
      Flags.reset_diagonal_test_valid]

/-- Witness of C8: staggered cells along `Y` with a table of four offsets on odd rows and two
on even rows, at the cells (0, 1) and (4, 3) of two odd rows; and orthogonal cells with
`Diagonal` alone. -/
theorem neighbor_cardinality_witness :
    ((⟨⟨32, 32⟩, .Y, .Odd⟩ : StaggeredCells ℚ).computeNeighbors
        (fun _ _ p => if p = .Odd then [⟨0, -1⟩, ⟨1, -1⟩, ⟨0, 1⟩, ⟨1, 1⟩] else [⟨-1, -1⟩, ⟨0, -1⟩])
        ⟨0, 1⟩ ⟨3, 3⟩ Flags.none).length =
      ((⟨⟨32, 32⟩, .Y, .Odd⟩ : StaggeredCells ℚ).computeNeighbors
        (fun _ _ p => if p = .Odd then [⟨0, -1⟩, ⟨1, -1⟩, ⟨0, 1⟩, ⟨1, 1⟩] else [⟨-1, -1⟩, ⟨0, -1⟩])
        ⟨4, 3⟩ ⟨3, 3⟩ Flags.none).length ∧
    ((⟨⟨32, 32⟩⟩ : OrthogonalCells ℚ).computeNeighbors ⟨1, 1⟩ ⟨3, 3⟩
        (Flags.only .Diagonal)).length = 8 :=
  ⟨neighbor_cardinality.2.2.1 _ ⟨⟨32, 32⟩, .Y, .Odd⟩ ⟨0, 1⟩ ⟨4, 3⟩ ⟨3, 3⟩ (by decide),
   neighbor_cardinality.2.2.2.1 ⟨⟨32, 32⟩⟩ ⟨1, 1⟩ ⟨3, 3⟩ (Flags.only .Diagonal)
     (by decide) (by decide)⟩

end Neighbors

section FieldTheorems

variable {K : Type} [LinearOrderedField K]

/-- C9 (orthogonal cell bounds). For every tile size `t` and all integer coordinates `c`, in
or out of any layer, `computeCellBounds(c)` is the rectangle at position
`(c.x * t.x, c.y * t.y)` with size `t`; for `t = (32, 32)` and `c = (2, 3)` it is the
rectangle at position (64, 96) with size (32, 32). -/
theorem orthogonal_cell_bounds :
    (∀ (cells : OrthogonalCells K) (c : Vector2i),
      (cells.computeCellBounds c).position =
          ⟨(c.x : K) * cells.m_tileSize.x, (c.y : K) * cells.m_tileSize.y⟩ ∧
        (cells.computeCellBounds c).size = cells.m_tileSize) ∧
    (⟨⟨32, 32⟩⟩ : OrthogonalCells ℚ).computeCellBounds ⟨2, 3⟩ = ⟨⟨64, 96⟩, ⟨32, 32⟩⟩ := by
  refine ⟨fun cells c => ⟨rfl, rfl⟩, ?_⟩
  simp only [OrthogonalCells.computeCellBounds]
  norm_num

/-- C10 (radius constructor). `HexagonalCells(radius, axis, index)` builds the instance
`HexagonalCells(computeRegularSize(axis, radius), radius, axis, index)`: the side length is
the radius, the tile size is `computeRegularSize(axis, radius)`, axis and index are stored
unchanged. `computeRegularSize` measures `2 * radius` along the pointed axis and
`radius * Sqrt3` along the flat one; over the reals with `Sqrt3 = sqrt 3` that is
`radius * sqrt 3`. -/
theorem hexagonal_radius_constructor :
    (∀ (Sqrt3 radius : K) (axis : CellAxis) (index : CellIndex),
      HexagonalCells.ofRadius Sqrt3 radius axis index =
          HexagonalCells.mk (HexagonalCells.computeRegularSize Sqrt3 axis radius) radius
            axis index ∧
        (HexagonalCells.ofRadius Sqrt3 radius axis index).m_sideLength = radius ∧
        (HexagonalCells.ofRadius Sqrt3 radius axis index).m_tileSize =
          HexagonalCells.computeRegularSize Sqrt3 axis radius ∧
        (HexagonalCells.ofRadius Sqrt3 radius axis index).m_axis = axis ∧
        (HexagonalCells.ofRadius Sqrt3 radius axis index).m_index = index ∧
        (HexagonalCells.computeRegularSize Sqrt3 axis radius).along axis = 2 * radius ∧
        (HexagonalCells.computeRegularSize Sqrt3 axis radius).along axis.other =
          radius * Sqrt3) ∧
    (∀ (radius : ℝ) (axis : CellAxis),
      (HexagonalCells.computeRegularSize (Real.sqrt 3) axis radius).along axis = 2 * radius ∧
        (HexagonalCells.computeRegularSize (Real.sqrt 3) axis radius).along axis.other =
          radius * Real.sqrt 3) := by
  constructor
  · intro Sqrt3 radius axis index
    refine ⟨rfl, rfl, rfl, rfl, rfl, ?_, ?_⟩
    · cases axis <;>
        simp [HexagonalCells.computeRegularSize, Vector2f.along, mul_comm]
    · cases axis <;>
        simp [HexagonalCells.computeRegularSize, Vector2f.along, CellAxis.other]
  · intro radius axis
    cases axis <;>
      simp [HexagonalCells.computeRegularSize, Vector2f.along, CellAxis.other, mul_comm]

/-! ## Layer bounds -/

theorem halfShift_nonneg (index : CellIndex) (n : Int) (extent : K) (h : 0 < extent) :
    0 ≤ halfShift index n extent := by
  unfold halfShift
  split
  · exact le_of_lt (half_pos h)
  · exact le_refl 0

theorem halfShift_le_half (index : CellIndex) (n : Int) (extent : K) (h : 0 < extent) :
    halfShift index n extent ≤ extent / 2 := by
  unfold halfShift
  split
  · exact le_refl _
  · exact le_of_lt (half_pos h)

theorem halfShift_zero_odd (extent : K) : halfShift .Odd 0 extent = 0 := by
  simp [halfShift, receivesOffset, parityOf]

theorem halfShift_one_odd (extent : K) : halfShift .Odd 1 extent = extent / 2 := by
  simp [halfShift, receivesOffset, parityOf]

theorem halfShift_zero_even (extent : K) : halfShift .Even 0 extent = extent / 2 := by
  simp [halfShift, receivesOffset, parityOf]

theorem halfShift_one_even (extent : K) : halfShift .Even 1 extent = 0 := by
  simp [halfShift, receivesOffset, parityOf]

theorem inLayer_cast (K : Type) [LinearOrderedField K] (layerSize c : Vector2i)
    (h : Vector2i.inLayer layerSize c = true) :
    (0 : K) ≤ (c.x : K) ∧ (c.x : K) + 1 ≤ (layerSize.x : K) ∧
    (0 : K) ≤ (c.y : K) ∧ (c.y : K) + 1 ≤ (layerSize.y : K) := by
  obtain ⟨h1, h2, h3, h4⟩ := (inLayer_iff layerSize c).mp h
  refine ⟨by exact_mod_cast h1, by exact_mod_cast h2, by exact_mod_cast h3,
    by exact_mod_cast h4⟩

theorem inLayer_of (layerSize c : Vector2i) (h1 : 0 ≤ c.x) (h2 : c.x < layerSize.x)
    (h3 : 0 ≤ c.y) (h4 : c.y < layerSize.y) : Vector2i.inLayer layerSize c = true :=
  (inLayer_iff layerSize c).mpr ⟨h1, h2, h3, h4⟩

theorem inLayer_origin (layerSize : Vector2i) (hx : 1 ≤ layerSize.x) (hy : 1 ≤ layerSize.y) :
    Vector2i.inLayer layerSize ⟨0, 0⟩ = true :=
  inLayer_of layerSize ⟨0, 0⟩ (le_refl 0) (by show (0 : Int) < layerSize.x; omega) (le_refl 0)
    (by show (0 : Int) < layerSize.y; omega)

theorem inLayer_last (layerSize : Vector2i) (hx : 1 ≤ layerSize.x) (hy : 1 ≤ layerSize.y) :
    Vector2i.inLayer layerSize ⟨layerSize.x - 1, layerSize.y - 1⟩ = true :=
  inLayer_of layerSize ⟨layerSize.x - 1, layerSize.y - 1⟩
    (by show 0 ≤ layerSize.x - 1; omega) (by show layerSize.x - 1 < layerSize.x; omega)
    (by show 0 ≤ layerSize.y - 1; omega) (by show layerSize.y - 1 < layerSize.y; omega)

/-- The bounds of an orthogonal layer are the bounding box of its cells. -/
theorem orthogonal_bounds_isLayerBoundingBox (cells : OrthogonalCells K)
    (layerSize : Vector2i) (htx : 0 < cells.m_tileSize.x) (hty : 0 < cells.m_tileSize.y)
    (hx : 1 ≤ layerSize.x) (hy : 1 ≤ layerSize.y) :
    IsLayerBoundingBox cells.computeCellBounds layerSize (cells.computeBounds layerSize) := by
  constructor
  · intro c hc
    obtain ⟨h1, h2, h3, h4⟩ := inLayer_cast K layerSize c hc
    simp only [RectF.encloses, RectF.min, RectF.max, OrthogonalCells.computeBounds,
      OrthogonalCells.computeCellBounds, zero_add]
    refine ⟨mul_nonneg h1 htx.le, mul_nonneg h3 hty.le, ?_, ?_⟩
    · nlinarith
    · nlinarith
  · intro r hr
    have h0 := hr ⟨0, 0⟩ (inLayer_origin layerSize hx hy)
    have h1 := hr ⟨layerSize.x - 1, layerSize.y - 1⟩ (inLayer_last layerSize hx hy)
    simp only [RectF.encloses, RectF.min, RectF.max, OrthogonalCells.computeBounds,
      OrthogonalCells.computeCellBounds, zero_add, Int.cast_zero, zero_mul, Int.cast_sub,
      Int.cast_one] at h0 h1 ⊢
    refine ⟨h0.1, h0.2.1, ?_, ?_⟩
    · linarith [h1.2.2.1]
    · linarith [h1.2.2.2]

/-- The bounds of a staggered layer contain the bounds of every cell of the layer. -/
theorem staggered_bounds_encloses (cells : StaggeredCells K)
    (layerSize c : Vector2i) (htx : 0 < cells.m_tileSize.x) (hty : 0 < cells.m_tileSize.y)
    (hc : Vector2i.inLayer layerSize c = true) :
    (cells.computeBounds layerSize).encloses (cells.computeCellBounds c) := by
  obtain ⟨h1, h2, h3, h4⟩ := inLayer_cast K layerSize c hc
  obtain ⟨t, axis, index⟩ := cells
  cases axis
  · have hs0 := halfShift_nonneg index c.x t.y hty
    have hs1 := halfShift_le_half index c.x t.y hty
    simp only [RectF.encloses, RectF.min, RectF.max, StaggeredCells.computeBounds,
      StaggeredCells.computeCellBounds, zero_add]
    refine ⟨mul_nonneg h1 htx.le, add_nonneg (mul_nonneg h3 hty.le) hs0, ?_, ?_⟩
    · nlinarith
    · nlinarith
  · have hs0 := halfShift_nonneg index c.y t.x htx
    have hs1 := halfShift_le_half index c.y t.x htx
    simp only [RectF.encloses, RectF.min, RectF.max, StaggeredCells.computeBounds,
      StaggeredCells.computeCellBounds, zero_add]
    refine ⟨add_nonneg (mul_nonneg h1 htx.le) hs0, mul_nonneg h3 hty.le, ?_, ?_⟩
    · nlinarith
    · nlinarith

/-- With at least two columns (axis `X`) or two rows (axis `Y`) the bounds of a staggered
layer are the bounding box of its cells. -/
theorem staggered_bounds_isLayerBoundingBox (cells : StaggeredCells K)
    (layerSize : Vector2i) (htx : 0 < cells.m_tileSize.x) (hty : 0 < cells.m_tileSize.y)
    (hx : 1 ≤ layerSize.x) (hy : 1 ≤ layerSize.y) (h2 : 2 ≤ layerSize.along cells.m_axis) :
    IsLayerBoundingBox cells.computeCellBounds layerSize (cells.computeBounds layerSize) := by
  refine ⟨fun c hc => staggered_bounds_encloses cells layerSize c htx hty hc, ?_⟩
  intro r hr
  obtain ⟨t, axis, index⟩ := cells
  cases axis
  · -- columns are staggered: the columns 0 and 1 exist
    have hx2 : 2 ≤ layerSize.x := h2
    have c00 := hr ⟨0, 0⟩ (inLayer_origin layerSize hx hy)
    have c10 := hr ⟨1, 0⟩ (inLayer_of layerSize ⟨1, 0⟩ Int.one_nonneg
      (by show (1 : Int) < layerSize.x; omega) (le_refl 0)
      (by show (0 : Int) < layerSize.y; omega))
    have c0n := hr ⟨0, layerSize.y - 1⟩ (inLayer_of layerSize ⟨0, layerSize.y - 1⟩ (le_refl 0)
      (by show (0 : Int) < layerSize.x; omega) (by show 0 ≤ layerSize.y - 1; omega)
      (by show layerSize.y - 1 < layerSize.y; omega))
    have c1n := hr ⟨1, layerSize.y - 1⟩ (inLayer_of layerSize ⟨1, layerSize.y - 1⟩ Int.one_nonneg
      (by show (1 : Int) < layerSize.x; omega) (by show 0 ≤ layerSize.y - 1; omega)
      (by show layerSize.y - 1 < layerSize.y; omega))
    have cmn := hr ⟨layerSize.x - 1, layerSize.y - 1⟩ (inLayer_last layerSize hx hy)
    cases index <;>
      simp only [RectF.encloses, RectF.min, RectF.max, StaggeredCells.computeBounds,
        StaggeredCells.computeCellBounds, zero_add, Int.cast_zero, zero_mul, Int.cast_sub,
        Int.cast_one, one_mul, halfShift_zero_odd, halfShift_one_odd, halfShift_zero_even,
        halfShift_one_even, add_zero] at c00 c10 c0n c1n cmn ⊢ <;>
      refine ⟨by linarith [c00.1], by linarith [c00.2.1, c10.2.1], by linarith [cmn.2.2.1],
        by linarith [c0n.2.2.2, c1n.2.2.2]⟩
  · -- rows are staggered: the rows 0 and 1 exist
    have hy2 : 2 ≤ layerSize.y := h2
    have c00 := hr ⟨0, 0⟩ (inLayer_origin layerSize hx hy)
    have c01 := hr ⟨0, 1⟩ (inLayer_of layerSize ⟨0, 1⟩ (le_refl 0)
      (by show (0 : Int) < layerSize.x; omega) Int.one_nonneg
      (by show (1 : Int) < layerSize.y; omega))
    have cn0 := hr ⟨layerSize.x - 1, 0⟩ (inLayer_of layerSize ⟨layerSize.x - 1, 0⟩
      (by show 0 ≤ layerSize.x - 1; omega) (by show layerSize.x - 1 < layerSize.x; omega)
      (le_refl 0) (by show (0 : Int) < layerSize.y; omega))
    have cn1 := hr ⟨layerSize.x - 1, 1⟩ (inLayer_of layerSize ⟨layerSize.x - 1, 1⟩
      (by show 0 ≤ layerSize.x - 1; omega) (by show layerSize.x - 1 < layerSize.x; omega)
      Int.one_nonneg (by show (1 : Int) < layerSize.y; omega))
    have cmn := hr ⟨layerSize.x - 1, layerSize.y - 1⟩ (inLayer_last layerSize hx hy)
    cases index <;>
      simp only [RectF.encloses, RectF.min, RectF.max, StaggeredCells.computeBounds,
        StaggeredCells.computeCellBounds, zero_add, Int.cast_zero, zero_mul, Int.cast_sub,
        Int.cast_one, one_mul, halfShift_zero_odd, halfShift_one_odd, halfShift_zero_even,
        halfShift_one_even, add_zero] at c00 c01 cn0 cn1 cmn ⊢ <;>
      refine ⟨by linarith [c00.1, c01.1], by linarith [c00.2.1], by linarith [cn0.2.2.1,
        cn1.2.2.1], by linarith [cmn.2.2.2]⟩

/-- A staggered layer of one cell, tile size 2 x 2 along `Y` with index `Odd`: the only cell
has the bounds (0, 0) + 2 x 2 and the modelled `computeBounds` is (0, 0) + 3 x 2, which is not
the smallest rectangle containing the cell. The half-tile that spec 4.3 adds to the bounds is
there whether or not the layer has a staggered row. -/
theorem staggered_single_cell_bounds :
    (⟨⟨2, 2⟩, .Y, .Odd⟩ : StaggeredCells ℚ).computeCellBounds ⟨0, 0⟩ = ⟨⟨0, 0⟩, ⟨2, 2⟩⟩ ∧
    (⟨⟨2, 2⟩, .Y, .Odd⟩ : StaggeredCells ℚ).computeBounds ⟨1, 1⟩ = ⟨⟨0, 0⟩, ⟨3, 2⟩⟩ ∧
    ¬ IsLayerBoundingBox (⟨⟨2, 2⟩, .Y, .Odd⟩ : StaggeredCells ℚ).computeCellBounds ⟨1, 1⟩
        ((⟨⟨2, 2⟩, .Y, .Odd⟩ : StaggeredCells ℚ).computeBounds ⟨1, 1⟩) := by
  have hcell : (⟨⟨2, 2⟩, .Y, .Odd⟩ : StaggeredCells ℚ).computeCellBounds ⟨0, 0⟩ =
      ⟨⟨0, 0⟩, ⟨2, 2⟩⟩ := by
    simp [StaggeredCells.computeCellBounds, halfShift_zero_odd]
  have hbounds : (⟨⟨2, 2⟩, .Y, .Odd⟩ : StaggeredCells ℚ).computeBounds ⟨1, 1⟩ =
      ⟨⟨0, 0⟩, ⟨3, 2⟩⟩ := by
    simp only [StaggeredCells.computeBounds]
    norm_num
  refine ⟨hcell, hbounds, ?_⟩
  intro h
  have hsmall := h.2 ⟨⟨0, 0⟩, ⟨2, 2⟩⟩ (by
    intro c hc
    obtain ⟨h1, h2, h3, h4⟩ := (inLayer_iff _ _).mp hc
    have hx : c.x = 0 := by
      have : c.x < 1 := h2
      omega
    have hy : c.y = 0 := by
      have : c.y < 1 := h4
      omega
    have hc0 : c = ⟨0, 0⟩ := by
      cases c
      simp_all
    rw [hc0, hcell]
    simp [RectF.encloses])
  rw [hbounds] at hsmall
  have h32 := hsmall.2.2.1
  simp only [RectF.max] at h32
  norm_num at h32

end FieldTheorems

/-! ## Orthogonal and staggered cells: centre round trip, adjacency, visible area -/

section FloorTheorems

variable {K : Type} [LinearOrderedField K] [FloorRing K]

theorem floor_center (n : Int) (t : K) (ht : 0 < t) : ⌊((n : K) * t + t / 2) / t⌋ = n := by
  have h : ((n : K) * t + t / 2) / t = (n : K) + 1 / 2 := by
    field_simp
    ring
  rw [h, Int.floor_eq_iff]
  constructor <;> linarith

/-- Orthogonal cells of positive tile size: the centre of the bounds of a cell lies in
that cell. -/
theorem orthogonal_center_roundtrip (cells : OrthogonalCells K) (c : Vector2i)
    (htx : 0 < cells.m_tileSize.x) (hty : 0 < cells.m_tileSize.y) :
    cells.computeCoordinates (cells.computeCellBounds c).center = c := by
  simp only [OrthogonalCells.computeCoordinates, OrthogonalCells.computeCellBounds,
    RectF.center, floor_center _ _ htx, floor_center _ _ hty]

/-- Staggered cells of positive tile size: the centre of the bounds of a cell lies in
that cell. -/
theorem staggered_center_roundtrip (cells : StaggeredCells K) (c : Vector2i)
    (htx : 0 < cells.m_tileSize.x) (hty : 0 < cells.m_tileSize.y) :
    cells.computeCoordinates (cells.computeCellBounds c).center = c := by
  obtain ⟨t, axis, index⟩ := cells
  cases axis
  · simp only [StaggeredCells.computeCoordinates, StaggeredCells.computeCellBounds,
      RectF.center, floor_center _ _ htx]
    have h : (c.y : K) * t.y + halfShift index c.x t.y + t.y / 2 - halfShift index c.x t.y =
        (c.y : K) * t.y + t.y / 2 := by ring
    rw [h, floor_center _ _ hty]
  · simp only [StaggeredCells.computeCoordinates, StaggeredCells.computeCellBounds,
      RectF.center, floor_center _ _ hty]
    have h : (c.x : K) * t.x + halfShift index c.y t.x + t.x / 2 - halfShift index c.y t.x =
        (c.x : K) * t.x + t.x / 2 := by ring
    rw [h, floor_center _ _ htx]

/-- Orthogonal cells of positive tile size: a cell whose bounds, lower edges included and
upper edges excluded, meet the rectangle `area` lies in `computeVisibleArea area`. -/
theorem orthogonal_visibleArea_covers (cells : OrthogonalCells K) (area : RectF K)
    (c : Vector2i) (htx : 0 < cells.m_tileSize.x) (hty : 0 < cells.m_tileSize.y)
    (hx1 : (cells.computeCellBounds c).min.x ≤ area.max.x)
    (hx2 : area.min.x < (cells.computeCellBounds c).max.x)
    (hy1 : (cells.computeCellBounds c).min.y ≤ area.max.y)
    (hy2 : area.min.y < (cells.computeCellBounds c).max.y) :
    (cells.computeVisibleArea area).contains c := by
  simp only [OrthogonalCells.computeCellBounds, RectF.min, RectF.max] at hx1 hx2 hy1 hy2
  have key : ∀ (n : Int) (t lo hi : K), 0 < t → (n : K) * t ≤ hi → lo < (n : K) * t + t →
      ⌊lo / t⌋ ≤ n ∧ n < ⌊lo / t⌋ + (⌈hi / t⌉ - ⌊lo / t⌋ + 1) := by
    intro n t lo hi ht h1 h2
    have hlo : ⌊lo / t⌋ < n + 1 := by
      rw [Int.floor_lt, div_lt_iff₀ ht]
      push_cast
      linarith
    have hhi : n ≤ ⌈hi / t⌉ := by
      rw [Int.le_ceil_iff, lt_div_iff₀ ht]
      linarith
    constructor <;> omega
  obtain ⟨a1, a2⟩ := key c.x _ _ _ htx hx1 hx2
  obtain ⟨b1, b2⟩ := key c.y _ _ _ hty hy1 hy2
  exact ⟨a1, a2, b1, b2⟩

end FloorTheorems

/-- Orthogonal cells: adjacency without flags is symmetric. -/
theorem orthogonal_neighbors_symm {K : Type} (cells : OrthogonalCells K)
    (a b layerSize : Vector2i) (h : b ∈ cells.computeNeighbors a layerSize Flags.none) :
    a ∈ cells.computeNeighbors b layerSize Flags.none := by
  obtain ⟨ax, ay⟩ := a
  obtain ⟨bx, by_⟩ := b
  simp only [OrthogonalCells.computeNeighbors, filterValid, Flags.test_none, cardinalOffsets,
    List.map_cons, List.map_nil, Vector2i.add, List.mem_cons, List.mem_singleton,
    List.not_mem_nil, or_false, Vector2i.mk.injEq, Bool.false_eq_true, if_false] at h ⊢
  omega

/-! ## Controls: keys, buttons and axes -/

/-- C17 (key and button controls). For `KeycodeKeyControl`, `ScancodeKeyControl`,
`MouseButtonControl` and `GamepadButtonControl`: `processEvent` sets the control active on a
press event that matches the configured code or button (for the gamepad, id and button), sets
it inactive on a matching release event, and leaves the control as it is on every other
event. -/
theorem key_button_controls (event : Event) :
    (∀ self : KeycodeKeyControl,
      (event.type = .KeyPressed → event.key.keycode = self.m_code →
        (self.processEvent event).m_active = true) ∧
      (event.type = .KeyReleased → event.key.keycode = self.m_code →
        (self.processEvent event).m_active = false) ∧
      (¬ (event.type = .KeyPressed ∧ event.key.keycode = self.m_code) →
        ¬ (event.type = .KeyReleased ∧ event.key.keycode = self.m_code) →
        self.processEvent event = self)) ∧
    (∀ self : ScancodeKeyControl,
      (event.type = .KeyPressed → event.key.scancode = self.m_code →
        (self.processEvent event).m_active = true) ∧
      (event.type = .KeyReleased → event.key.scancode = self.m_code →
        (self.processEvent event).m_active = false) ∧
      (¬ (event.type = .KeyPressed ∧ event.key.scancode = self.m_code) →
        ¬ (event.type = .KeyReleased ∧ event.key.scancode = self.m_code) →
        self.processEvent event = self)) ∧
    (∀ self : MouseButtonControl,
      (event.type = .MouseButtonPressed → event.mouseButton.button = self.m_button →
        (self.processEvent event).m_active = true) ∧
      (event.type = .MouseButtonReleased → event.mouseButton.button = self.m_button →
        (self.processEvent event).m_active = false) ∧
      (¬ (event.type = .MouseButtonPressed ∧ event.mouseButton.button = self.m_button) →
        ¬ (event.type = .MouseButtonReleased ∧ event.mouseButton.button = self.m_button) →
        self.processEvent event = self)) ∧
    (∀ self : GamepadButtonControl,
      (event.type = .GamepadButtonPressed → event.gamepadButton.id = self.m_id →
        event.gamepadButton.button = self.m_button →
        (self.processEvent event).m_active = true) ∧
      (event.type = .GamepadButtonReleased → event.gamepadButton.id = self.m_id →
        event.gamepadButton.button = self.m_button →
        (self.processEvent event).m_active = false) ∧
      (¬ (event.type = .GamepadButtonPressed ∧ event.gamepadButton.id = self.m_id ∧
            event.gamepadButton.button = self.m_button) →
        ¬ (event.type = .GamepadButtonReleased ∧ event.gamepadButton.id = self.m_id ∧
            event.gamepadButton.button = self.m_button) →
        self.processEvent event = self)) := by
  refine ⟨?_, ?_, ?_, ?_⟩
  · intro self
    refine ⟨?_, ?_, ?_⟩
    · intro ht hc
      simp [KeycodeKeyControl.processEvent, Control.setActive, ht, hc]
    · intro ht hc
      simp [KeycodeKeyControl.processEvent, Control.setActive, ht, hc]
    · intro h1 h2
      simp only [KeycodeKeyControl.processEvent]
      split_ifs <;> simp_all
  · intro self
    refine ⟨?_, ?_, ?_⟩
    · intro ht hc
      simp [ScancodeKeyControl.processEvent, Control.setActive, ht, hc]
    · intro ht hc
      simp [ScancodeKeyControl.processEvent, Control.setActive, ht, hc]
    · intro h1 h2
      simp only [ScancodeKeyControl.processEvent]
      split_ifs <;> simp_all
  · intro self
    refine ⟨?_, ?_, ?_⟩
    · intro ht hc
      simp [MouseButtonControl.processEvent, Control.setActive, ht, hc]
    · intro ht hc
      simp [MouseButtonControl.processEvent, Control.setActive, ht, hc]
    · intro h1 h2
      simp only [MouseButtonControl.processEvent]
      split_ifs <;> simp_all
  · intro self
    refine ⟨?_, ?_, ?_⟩
    · intro ht hi hc
      simp [GamepadButtonControl.processEvent, Control.setActive, ht, hi, hc]
    · intro ht hi hc
      simp [GamepadButtonControl.processEvent, Control.setActive, ht, hi, hc]
    · intro h1 h2
      simp only [GamepadButtonControl.processEvent]
      split_ifs <;> simp_all

/-- Witness of C17: a control on the key `A`, inactive, receives the press of `A`; the same
control, active, receives the release of `A`, and the press of `B`. -/
theorem key_button_controls_witness :
    ((⟨⟨false⟩, .A⟩ : KeycodeKeyControl).processEvent (Event.ofKey .KeyPressed .A)).m_active
        = true ∧
    ((⟨⟨true⟩, .A⟩ : KeycodeKeyControl).processEvent (Event.ofKey .KeyReleased .A)).m_active
        = false ∧
    (⟨⟨true⟩, .A⟩ : KeycodeKeyControl).processEvent (Event.ofKey .KeyPressed .B) =
        ⟨⟨true⟩, .A⟩ :=
  ⟨((key_button_controls (Event.ofKey .KeyPressed .A)).1 ⟨⟨false⟩, .A⟩).1 rfl rfl,
   ((key_button_controls (Event.ofKey .KeyReleased .A)).1 ⟨⟨true⟩, .A⟩).2.1 rfl rfl,
   ((key_button_controls (Event.ofKey .KeyPressed .B)).1 ⟨⟨true⟩, .A⟩).2.2 (by decide)
     (by decide)⟩

/-- C16 (gamepad axis threshold). On a `GamepadAxisMoved` event whose id and axis are those
of the control, the control is active afterwards exactly when `value > 8000` for the direction
`Positive` and exactly when `value < -8000` for `Negative`, so that 8000 and -8000 leave it
inactive; every other event leaves the control as it is. -/
theorem gamepad_axis_threshold (self : GamepadAxisControl) (event : Event) :
    (event.type = .GamepadAxisMoved → event.gamepadAxis.id = self.m_id →
      event.gamepadAxis.axis = self.m_axis →
      (self.m_dir = .Positive →
        ((self.processEvent event).m_active = true ↔ event.gamepadAxis.value > 8000) ∧
        (event.gamepadAxis.value = 8000 → (self.processEvent event).m_active = false)) ∧
      (self.m_dir = .Negative →
        ((self.processEvent event).m_active = true ↔ event.gamepadAxis.value < -8000) ∧
        (event.gamepadAxis.value = -8000 → (self.processEvent event).m_active = false))) ∧
    (¬ (event.type = .GamepadAxisMoved ∧ event.gamepadAxis.id = self.m_id ∧
          event.gamepadAxis.axis = self.m_axis) →
      self.processEvent event = self) := by
  constructor
  · intro ht hi ha
    constructor
    · intro hd
      simp [GamepadAxisControl.processEvent, Control.setActive, GamepadAxisThreshold, ht, hi,
        ha, hd]
      intro hv
      simp [hv]
    · intro hd
      simp [GamepadAxisControl.processEvent, Control.setActive, GamepadAxisThreshold, ht, hi,
        ha, hd]
      intro hv
      simp [hv]
  · intro h
    simp only [GamepadAxisControl.processEvent]
    split_ifs <;> simp_all

/-- Witness of C16: a control on the positive direction of axis 0 of gamepad 0 receives the
values 8001 and 8000. -/
theorem gamepad_axis_threshold_witness :
    (((⟨⟨false⟩, ⟨0⟩, ⟨0⟩, .Positive⟩ : GamepadAxisControl).processEvent
        (Event.ofAxis ⟨0⟩ ⟨0⟩ 8001)).m_active = true ↔ (8001 : Int) > 8000) ∧
    ((⟨⟨true⟩, ⟨0⟩, ⟨0⟩, .Positive⟩ : GamepadAxisControl).processEvent
        (Event.ofAxis ⟨0⟩ ⟨0⟩ 8000)).m_active = false :=
  ⟨(((gamepad_axis_threshold ⟨⟨false⟩, ⟨0⟩, ⟨0⟩, .Positive⟩ (Event.ofAxis ⟨0⟩ ⟨0⟩ 8001)).1
      rfl rfl rfl).1 rfl).1,
   (((gamepad_axis_threshold ⟨⟨true⟩, ⟨0⟩, ⟨0⟩, .Positive⟩ (Event.ofAxis ⟨0⟩ ⟨0⟩ 8000)).1
      rfl rfl rfl).1 rfl).2 rfl⟩

/-! ## Controls: the Konami code -/

theorem nthKeyForKonami_isSome (index : Int) (h0 : 0 ≤ index) (h1 : index < KonamiKeysCount) :
    ∃ key, nthKeyForKonami index = some key := by
  have h1' : index < 10 := h1
  interval_cases index <;> exact ⟨_, rfl⟩

theorem nthKeyForKonami_inRange (index : Int) (key : Keycode)
    (h : nthKeyForKonami index = some key) : 0 ≤ index ∧ index < KonamiKeysCount := by
  unfold nthKeyForKonami at h
  split_ifs at h with hlt
  refine ⟨?_, hlt⟩
  by_contra hneg
  have hlt0 : index < 0 := by omega
  split at h <;> first | omega | exact Option.noConfusion h

/-- One step from a state with the index in range: no assertion fails, the index stays in
range, and an active control is back at index 0 in state `Released`. -/
theorem konami_step (s : KonamiKeyboardControl) (event : Event)
    (h0 : 0 ≤ s.m_index) (h1 : s.m_index < KonamiKeysCount) :
    ∃ s', s.processEvent event = some s' ∧ 0 ≤ s'.m_index ∧ s'.m_index < KonamiKeysCount ∧
      (s'.m_active = true → s'.m_index = 0 ∧ s'.m_state = .Released) := by
  obtain ⟨key, hkey⟩ := nthKeyForKonami_isSome s.m_index h0 h1
  have h10 : s.m_index < 10 := h1
  obtain ⟨⟨active⟩, index, state⟩ := s
  simp only at h0 h10 hkey
  have hne : index ≠ 10 := by omega
  have hcontra : event.type = .KeyPressed → event.type = .KeyReleased → False := by
    intro hp hr
    rw [hp] at hr
    exact EventType.noConfusion hr
  cases state <;> by_cases hp : event.type = .KeyPressed <;>
    by_cases hr : event.type = .KeyReleased <;>
    by_cases hk : event.key.keycode = key <;>
    first
    | exact absurd hr (fun h => hcontra hp h)
    | (simp [KonamiKeyboardControl.processEvent, hkey, hp, hr, hk, KonamiKeysCount,
        Control.setActive, hne, h0, h10]
       done)
    | (simp [KonamiKeyboardControl.processEvent, hkey, hp, hr, hk, KonamiKeysCount,
        Control.setActive, hne, h0, h10]
       split_ifs <;> (simp; try omega))

/-- Any sequence of events from a state with the index in range: no assertion fails and the
index stays in range. -/
theorem konami_run (events : List Event) :
    ∀ s : KonamiKeyboardControl, 0 ≤ s.m_index → s.m_index < KonamiKeysCount →
      ∃ s', s.processEvents events = some s' ∧ 0 ≤ s'.m_index ∧ s'.m_index < KonamiKeysCount := by
  induction events with
  | nil =>
    intro s h0 h1
    exact ⟨s, rfl, h0, h1⟩
  | cons event events ih =>
    intro s h0 h1
    obtain ⟨s1, hs1, h0', h1', _⟩ := konami_step s event h0 h1
    obtain ⟨s2, hs2, hb⟩ := ih s1 h0' h1'
    exact ⟨s2, by simp [KonamiKeyboardControl.processEvents, hs1, hs2], hb⟩

/-- C13 (Konami index in range). From the constructed control (index 0, `Released`) and after
any finite sequence of events, no assertion has failed and the index satisfies
`0 <= m_index < KonamiKeysCount`; `nthKeyForKonami(m_index)` then returns a key, and the next
`processEvent` again fails no assertion and leaves the index in range. -/
theorem konami_index_in_range (base : Control) (events : List Event) :
    ∃ s, (KonamiKeyboardControl.new base).processEvents events = some s ∧
      0 ≤ s.m_index ∧ s.m_index < KonamiKeysCount ∧
      (∃ key, nthKeyForKonami s.m_index = some key) ∧
      ∀ event, ∃ s', s.processEvent event = some s' ∧
        0 ≤ s'.m_index ∧ s'.m_index < KonamiKeysCount := by
  obtain ⟨s, hs, h0, h1⟩ := konami_run events (KonamiKeyboardControl.new base)
    (le_refl 0) (show (0 : Int) < 10 by decide)
  refine ⟨s, hs, h0, h1, nthKeyForKonami_isSome s.m_index h0 h1, ?_⟩
  intro event
  obtain ⟨s', hs', h0', h1', _⟩ := konami_step s event h0 h1
  exact ⟨s', hs', h0', h1'⟩

/-- C15 (active for one event only). After any finite sequence of events from the constructed
control and for any two further events `e1`, `e2`, the control is not active after both: if it
is active after `e1`, it is inactive after `e2`. -/
theorem konami_active_once (base : Control) (events : List Event) (e1 e2 : Event) :
    ∃ s s1 s2, (KonamiKeyboardControl.new base).processEvents events = some s ∧
      s.processEvent e1 = some s1 ∧ s1.processEvent e2 = some s2 ∧
      ¬ (s1.m_active = true ∧ s2.m_active = true) ∧
      (s1.m_active = true → s2.m_active = false) := by
  obtain ⟨s, hs, h0, h1⟩ := konami_run events (KonamiKeyboardControl.new base)
    (le_refl 0) (show (0 : Int) < 10 by decide)
  obtain ⟨s1, hs1, h0', h1', hact⟩ := konami_step s e1 h0 h1
  obtain ⟨s2, hs2, _⟩ := konami_step s1 e2 h0' h1'
  have key : s1.m_active = true → s2.m_active = false := by
    intro ha
    obtain ⟨hi, hst⟩ := hact ha
    obtain ⟨⟨active⟩, index, state⟩ := s1
    simp only at hi hst
    subst hi hst
    have h00 : nthKeyForKonami 0 = some .Up := rfl
    by_cases hp : e2.type = .KeyPressed <;> by_cases hk : e2.key.keycode = .Up <;>
      simp [KonamiKeyboardControl.processEvent, h00, hp, hk, KonamiKeysCount,
        Control.setActive] at hs2 <;>
      rw [← hs2]
  refine ⟨s, s1, s2, hs, hs1, hs2, ?_, key⟩
  rintro ⟨ha, hb⟩
  rw [key ha] at hb
  exact Bool.noConfusion hb

theorem konami_processEvent_congr (s : KonamiKeyboardControl) (e e' : Event)
    (ht : e.type = e'.type) (hk : e.key.keycode = e'.key.keycode) :
    s.processEvent e = s.processEvent e' := by
  simp only [KonamiKeyboardControl.processEvent, ht, hk]

/-- The Konami control reads the type and the keycode of an event, nothing else. -/
theorem konami_processEvents_ofKey (events : List Event) :
    ∀ s : KonamiKeyboardControl, s.processEvents events =
      s.processEvents (events.map fun e => Event.ofKey e.type e.key.keycode) := by
  induction events with
  | nil => intro s; rfl
  | cons e events ih =>
    intro s
    simp only [KonamiKeyboardControl.processEvents, List.map_cons]
    rw [konami_processEvent_congr s e (Event.ofKey e.type e.key.keycode) rfl rfl]
    congr 1
    funext s1
    exact ih s1

/-- C14 (the Konami code is recognised). From the constructed control, feed for each key of
Up, Up, Down, Down, Left, Right, Left, Right, B, A in order a `KeyPressed` and then a
`KeyReleased` event of that key: the control is inactive after each of the first 19 events,
and after the 20th it is active, with index 0 and state `Released`. -/
theorem konami_recognised (base : Control) (events : List Event)
    (h : events.map (fun e => (e.type, e.key.keycode)) =
      konamiCode.flatMap fun key => [(EventType.KeyPressed, key), (EventType.KeyReleased, key)]) :
    (∀ n, 1 ≤ n → n ≤ 19 →
      ((KonamiKeyboardControl.new base).processEvents (events.take n)).map
        (fun s => s.m_active) = some false) ∧
    ((KonamiKeyboardControl.new base).processEvents events).map
        (fun s => (s.m_active, s.m_index, s.m_state)) = some (true, 0, KonamiState.Released) := by
  have hcanon : (events.map fun e => Event.ofKey e.type e.key.keycode) =
      konamiCode.flatMap fun key =>
        [Event.ofKey .KeyPressed key, Event.ofKey .KeyReleased key] := by
    have h2 := congrArg (List.map fun p : EventType × Keycode => Event.ofKey p.1 p.2) h
    simp only [List.map_map] at h2
    rw [show (events.map fun e => Event.ofKey e.type e.key.keycode) =
      events.map ((fun p : EventType × Keycode => Event.ofKey p.1 p.2) ∘
        fun e => (e.type, e.key.keycode)) from rfl, h2]
    rfl
  obtain ⟨active⟩ := base
  constructor
  · intro n h1 h19
    rw [konami_processEvents_ofKey, List.map_take, hcanon]
    cases active <;> interval_cases n <;> decide
  · rw [konami_processEvents_ofKey, hcanon]
    cases active <;> decide

/-- Witness of C14: the twenty events with all other members zero, on a control built
inactive. -/
theorem konami_recognised_witness :
    (∀ n, 1 ≤ n → n ≤ 19 →
      ((KonamiKeyboardControl.new ⟨false⟩).processEvents
        ((konamiCode.flatMap fun key =>
          [Event.ofKey .KeyPressed key, Event.ofKey .KeyReleased key]).take n)).map
        (fun s => s.m_active) = some false) ∧
    ((KonamiKeyboardControl.new ⟨false⟩).processEvents
        (konamiCode.flatMap fun key =>
          [Event.ofKey .KeyPressed key, Event.ofKey .KeyReleased key])).map
        (fun s => (s.m_active, s.m_index, s.m_state)) = some (true, 0, KonamiState.Released) :=
  konami_recognised ⟨false⟩
    (konamiCode.flatMap fun key => [Event.ofKey .KeyPressed key, Event.ofKey .KeyReleased key])
    (by decide)

/-- C18 (a wrong key discards the progress). With the index `i` in range: in state `Released`
a `KeyPressed` whose keycode is not the `i`-th key of the code gives index 0, state `Released`
and an inactive control, whatever that keycode is; in state `Pressed` a `KeyReleased` whose
keycode is not the `i`-th key gives index 0 and state `Released`; an event that is neither
`KeyPressed` nor `KeyReleased` leaves index and state unchanged. -/
theorem konami_wrong_key (s : KonamiKeyboardControl) (event : Event) (key : Keycode)
    (hkey : nthKeyForKonami s.m_index = some key) :
    (s.m_state = .Released → event.type = .KeyPressed → event.key.keycode ≠ key →
      ∃ s', s.processEvent event = some s' ∧ s'.m_index = 0 ∧ s'.m_state = .Released ∧
        s'.m_active = false) ∧
    (s.m_state = .Pressed → event.type = .KeyReleased → event.key.keycode ≠ key →
      ∃ s', s.processEvent event = some s' ∧ s'.m_index = 0 ∧ s'.m_state = .Released) ∧
    (event.type ≠ .KeyPressed → event.type ≠ .KeyReleased →
      ∃ s', s.processEvent event = some s' ∧ s'.m_index = s.m_index ∧
        s'.m_state = s.m_state) := by
  obtain ⟨h0, h1⟩ := nthKeyForKonami_inRange s.m_index key hkey
  have h10 : s.m_index < 10 := h1
  obtain ⟨⟨active⟩, index, state⟩ := s
  simp only at h0 h10 hkey
  have hne : index ≠ 10 := by omega
  refine ⟨?_, ?_, ?_⟩
  · intro hs hp hk
    simp only at hs
    subst hs
    simp [KonamiKeyboardControl.processEvent, hkey, hp, hk, KonamiKeysCount, Control.setActive]
  · intro hs hr hk
    simp only at hs
    subst hs
    simp [KonamiKeyboardControl.processEvent, hkey, hr, hk, KonamiKeysCount, Control.setActive]
  · intro hp hr
    simp [KonamiKeyboardControl.processEvent, hp, hr, KonamiKeysCount, Control.setActive, hne]

/-- Witness of C18: at index 2, where the code expects Down, the press of Up resets the
control and is not counted as the first key. -/
theorem konami_wrong_key_witness :
    ∃ s', (⟨⟨false⟩, 2, .Released⟩ : KonamiKeyboardControl).processEvent
        (Event.ofKey .KeyPressed .Up) = some s' ∧
      s'.m_index = 0 ∧ s'.m_state = .Released ∧ s'.m_active = false :=
  (konami_wrong_key ⟨⟨false⟩, 2, .Released⟩ (Event.ofKey .KeyPressed .Up) .Down rfl).1
    rfl rfl (by decide)

/-! ## Outlines and the width and height of the bounds -/

section Outlines

variable {K : Type} [LinearOrderedField K]

/-- Every vertex of a hexagon outline lies at the squared distance `sideLength ^ 2` from the
centre of the bounds of the cell, when `Sqrt3` squares to 3. -/
theorem hexagon_vertex_sq_dist (Sqrt3 : K) (hS : Sqrt3 * Sqrt3 = 3)
    (position : Vector2i → Vector2f K) (cells : HexagonalCells K) (coords : Vector2i)
    (v : Vector2f K) (hv : v ∈ cells.computePolyline Sqrt3 position coords) :
    (v.x - (cells.computeCellBounds position coords).center.x) ^ 2 +
      (v.y - (cells.computeCellBounds position coords).center.y) ^ 2 =
        cells.m_sideLength ^ 2 := by
  obtain ⟨t, side, axis, index⟩ := cells
  simp only [HexagonalCells.computePolyline, List.mem_map] at hv
  obtain ⟨d, hd, rfl⟩ := hv
  have hunit : d.x ^ 2 + d.y ^ 2 = 1 := by
    cases axis <;>
      simp only [hexagonDirections, List.mem_cons, List.mem_singleton, List.not_mem_nil,
        or_false] at hd <;>
      rcases hd with rfl | rfl | rfl | rfl | rfl | rfl <;>
      simp only <;> nlinarith [hS]
  simp only [add_sub_cancel_left]
  calc (side * d.x) ^ 2 + (side * d.y) ^ 2 = side ^ 2 * (d.x ^ 2 + d.y ^ 2) := by ring
    _ = side ^ 2 := by rw [hunit, mul_one]

/-- C12 (outline vertices). For hexagonal cells built from a radius `r > 0`, over the reals
with `Sqrt3 = sqrt 3`, any axis and index and all integer coordinates `c`: `computePolyline(c)`
has exactly 6 vertices and each one lies at the Euclidean distance `r` from the centre of
`computeCellBounds(c)`. `computePolyline` of orthogonal and of staggered cells has exactly 4
vertices for every `c`. -/
theorem polyline_vertices :
    (∀ (radius : ℝ) (axis : CellAxis) (index : CellIndex)
        (position : Vector2i → Vector2f ℝ) (c : Vector2i), 0 < radius →
      ((HexagonalCells.ofRadius (Real.sqrt 3) radius axis index).computePolyline
          (Real.sqrt 3) position c).length = 6 ∧
      ∀ v ∈ (HexagonalCells.ofRadius (Real.sqrt 3) radius axis index).computePolyline
          (Real.sqrt 3) position c,
        Real.sqrt
          ((v.x - ((HexagonalCells.ofRadius (Real.sqrt 3) radius axis index).computeCellBounds
              position c).center.x) ^ 2 +
           (v.y - ((HexagonalCells.ofRadius (Real.sqrt 3) radius axis index).computeCellBounds
              position c).center.y) ^ 2) = radius) ∧
    (∀ (cells : OrthogonalCells K) (c : Vector2i), (cells.computePolyline c).length = 4) ∧
    (∀ (outline : RectF K → Fin 4 → Vector2f K) (cells : StaggeredCells K) (c : Vector2i),
      (cells.computePolyline outline c).length = 4) := by
  refine ⟨?_, ?_, ?_⟩
  · intro radius axis index position c hr
    constructor
    · cases axis <;>
        simp [HexagonalCells.computePolyline, HexagonalCells.ofRadius, hexagonDirections]
    · intro v hv
      have h3 : Real.sqrt 3 * Real.sqrt 3 = 3 := Real.mul_self_sqrt (by norm_num)
      rw [hexagon_vertex_sq_dist (Real.sqrt 3) h3 position _ c v hv]
      exact Real.sqrt_sq hr.le
  · intro cells c
    simp [OrthogonalCells.computePolyline]
  · intro outline cells c
    simp [StaggeredCells.computePolyline]

/-- Witness of C12: the scenario of the spec, radius 10, axis `X`, index `Odd`, at the
cell (0, 0) with its bounds placed at the origin. -/
theorem polyline_vertices_witness :
    (0 : ℝ) < 10 ∧
    ((HexagonalCells.ofRadius (Real.sqrt 3) (10 : ℝ) .X .Odd).computePolyline
        (Real.sqrt 3) (fun _ => ⟨0, 0⟩) ⟨0, 0⟩).length = 6 ∧
    ∀ v ∈ (HexagonalCells.ofRadius (Real.sqrt 3) (10 : ℝ) .X .Odd).computePolyline
        (Real.sqrt 3) (fun _ => ⟨0, 0⟩) ⟨0, 0⟩,
      Real.sqrt
        ((v.x - ((HexagonalCells.ofRadius (Real.sqrt 3) (10 : ℝ) .X .Odd).computeCellBounds
            (fun _ => ⟨0, 0⟩) ⟨0, 0⟩).center.x) ^ 2 +
         (v.y - ((HexagonalCells.ofRadius (Real.sqrt 3) (10 : ℝ) .X .Odd).computeCellBounds
            (fun _ => ⟨0, 0⟩) ⟨0, 0⟩).center.y) ^ 2) = 10 :=
  ⟨by norm_num,
   (@polyline_vertices ℚ _).1 10 .X .Odd (fun _ => ⟨0, 0⟩) ⟨0, 0⟩ (by norm_num)⟩

/-- Orthogonal cells of positive tile size: a layer that is at least as wide, or as high,
has bounds at least as wide, or as high. -/
theorem orthogonal_bounds_mono (cells : OrthogonalCells K) (s s' : Vector2i)
    (htx : 0 < cells.m_tileSize.x) (hty : 0 < cells.m_tileSize.y) :
    (s.x ≤ s'.x → (cells.computeBounds s).size.x ≤ (cells.computeBounds s').size.x) ∧
    (s.y ≤ s'.y → (cells.computeBounds s).size.y ≤ (cells.computeBounds s').size.y) := by
  simp only [OrthogonalCells.computeBounds]
  constructor
  · intro h
    have hc : (s.x : K) ≤ (s'.x : K) := by exact_mod_cast h
    exact mul_le_mul_of_nonneg_right hc htx.le
  · intro h
    have hc : (s.y : K) ≤ (s'.y : K) := by exact_mod_cast h
    exact mul_le_mul_of_nonneg_right hc hty.le

/-- Staggered cells of positive tile size: a layer that is at least as wide, or as high,
has bounds at least as wide, or as high. -/
theorem staggered_bounds_mono (cells : StaggeredCells K) (s s' : Vector2i)
    (htx : 0 < cells.m_tileSize.x) (hty : 0 < cells.m_tileSize.y) :
    (s.x ≤ s'.x → (cells.computeBounds s).size.x ≤ (cells.computeBounds s').size.x) ∧
    (s.y ≤ s'.y → (cells.computeBounds s).size.y ≤ (cells.computeBounds s').size.y) := by
  obtain ⟨t, axis, index⟩ := cells
  cases axis <;> simp only [StaggeredCells.computeBounds] <;> constructor <;> intro h
  · have hc : (s.x : K) ≤ (s'.x : K) := by exact_mod_cast h
    exact mul_le_mul_of_nonneg_right hc htx.le
  · have hc : (s.y : K) ≤ (s'.y : K) := by exact_mod_cast h
    exact add_le_add_right (mul_le_mul_of_nonneg_right hc hty.le) _
  · have hc : (s.x : K) ≤ (s'.x : K) := by exact_mod_cast h
    exact add_le_add_right (mul_le_mul_of_nonneg_right hc htx.le) _
  · have hc : (s.y : K) ≤ (s'.y : K) := by exact_mod_cast h
    exact mul_le_mul_of_nonneg_right hc hty.le

end Outlines

end gf
